import Mathlib

/-!
Verification development for the smart-money detection and copy-trading engine
(`SmartMoneyService`): the seen-hash deduplication window, the polling detector,
the mempool (pending-transaction) detector, the copy-trade execution pipeline,
the split-order planner, and the subscription/session teardown.

Each definition is a shallow embedding of the corresponding TypeScript code.
JavaScript numbers are modelled by `ℚ` (all operations proved about are exact at
the inputs considered), raw on-chain amounts by `ℕ`, timestamps by `ℤ`.
External calls (data API, exchange client, user callbacks) are modelled as
oracle inputs of type `Except String α`: an `Except.error` value stands for the
call throwing an exception.  Structure fields that no property consults
(display names, market slugs, outcome labels) are omitted.
-/

/-- ASCII lowercasing, modelling JavaScript `.toLowerCase()` on addresses
(defined over the character list so that it evaluates by kernel reduction). -/
def toLowerCase (s : String) : String := ⟨s.data.map Char.toLower⟩

/-- JavaScript `String.prototype.startsWith`, over the character list so that
it evaluates by kernel reduction. -/
def strStartsWith (s p : String) : Bool := p.data.isPrefixOf s.data

/-- Order side, as in the `OrderSide` enum and the `'BUY' | 'SELL'` union. -/
inductive Side where
  | BUY
  | SELL
deriving DecidableEq, Repr

/-- The seen-hash dedup window is a JavaScript `Set` (insertion-ordered) of
transaction hashes, modelled as an insertion-ordered duplicate-free list.
`addAndPrune w h` is `seenTxHashes.add(hash)` followed by the pruning step
`if (size > 1000) remove the first 500 in insertion order` that appears
verbatim in both the polling loop and the mempool handler. -/
def addAndPrune {α : Type} [DecidableEq α] (w : List α) (h : α) : List α :=
  let w' := if h ∈ w then w else w ++ [h]
  if w'.length > 1000 then w'.drop 500 else w'

theorem length_addAndPrune_le {α : Type} [DecidableEq α] (w : List α) (h : α)
    (hw : w.length ≤ 1000) : (addAndPrune w h).length ≤ 1000 := by
  unfold addAndPrune
  by_cases hmem : h ∈ w <;> simp only [hmem, if_true, if_false] <;> split <;>
    rename_i hlen <;>
    first
    | (rw [List.length_drop]
       simp only [List.length_append, List.length_singleton]
       omega)
    | (simp only [List.length_append, List.length_singleton] at hlen ⊢
       omega)
    | omega

theorem mem_addAndPrune_self {α : Type} [DecidableEq α] (w : List α) (h : α)
    (hw : w.length ≤ 1000) : h ∈ addAndPrune w h := by
  unfold addAndPrune
  by_cases hmem : h ∈ w
  · simp only [hmem, if_true]
    have : ¬ w.length > 1000 := by omega
    simp [this, hmem]
  · simp only [hmem, if_false]
    split
    · rename_i hlen
      have hwlen : (w ++ [h]).length = w.length + 1 := by simp
      have h500 : 500 ≤ w.length := by omega
      rw [List.drop_append_of_le_length h500]
      simp
    · simp

theorem addAndPrune_fresh_over {α : Type} [DecidableEq α] (w : List α) (h : α)
    (hmem : h ∉ w) (hlen : (w ++ [h]).length > 1000) :
    addAndPrune w h = (w ++ [h]).drop 500 := by
  unfold addAndPrune
  simp only [hmem, if_false, hlen, if_true]

theorem addAndPrune_fresh_under {α : Type} [DecidableEq α] (w : List α) (h : α)
    (hmem : h ∉ w) (hlen : ¬ (w ++ [h]).length > 1000) :
    addAndPrune w h = w ++ [h] := by
  unfold addAndPrune
  simp only [hmem, if_false, hlen, if_true]

/-- Folding fresh distinct hashes into a window that has room for all of them
just appends them in insertion order. -/
theorem foldl_addAndPrune_append {α : Type} [DecidableEq α] :
    ∀ (hs w : List α), hs.Nodup → (∀ x ∈ hs, x ∉ w) →
      w.length + hs.length ≤ 1000 → hs.foldl addAndPrune w = w ++ hs
  | [], w, _, _, _ => by simp
  | h :: t, w, hnd, hfresh, hlen => by
    have hmem : h ∉ w := hfresh h (by simp)
    have hstep : addAndPrune w h = w ++ [h] := by
      apply addAndPrune_fresh_under w h hmem
      simp only [List.length_append, List.length_singleton]
      simp only [List.length_cons] at hlen
      omega
    have hnd' : (w ++ [h]).length + t.length ≤ 1000 := by
      simp only [List.length_append, List.length_singleton]
      simp only [List.length_cons] at hlen
      omega
    have ht : t.foldl addAndPrune (w ++ [h]) = (w ++ [h]) ++ t := by
      apply foldl_addAndPrune_append t (w ++ [h]) (List.Nodup.of_cons hnd)
      · intro x hx
        simp only [List.mem_append, List.mem_singleton]
        rintro (hxw | hxh)
        · exact hfresh x (by simp [hx]) hxw
        · exact (List.nodup_cons.mp hnd).1 (hxh ▸ hx)
      · exact hnd'
    simp only [List.foldl_cons, hstep, ht, List.append_assoc, List.singleton_append]

/-- Every window reachable by marking hashes from the empty window has size at
most the 1000 ceiling. -/
theorem foldl_addAndPrune_length_le {α : Type} [DecidableEq α] :
    ∀ (hs w : List α), w.length ≤ 1000 → (hs.foldl addAndPrune w).length ≤ 1000
  | [], _, hw => by simpa using hw
  | h :: t, w, hw => by
    simp only [List.foldl_cons]
    exact foldl_addAndPrune_length_le t _ (length_addAndPrune_le w h hw)

/-- Inserting 1001 distinct hashes into an empty window leaves exactly the most
recent 501 of them, in order. -/
theorem foldl_addAndPrune_of_length_1001 {α : Type} [DecidableEq α] (hs : List α)
    (hnd : hs.Nodup) (hlen : hs.length = 1001) :
    hs.foldl addAndPrune [] = hs.drop 500 := by
  have hne : hs ≠ [] := by intro hcon; rw [hcon] at hlen; simp at hlen
  obtain ⟨ys, z, hys⟩ : ∃ ys z, hs = ys ++ [z] := by
    refine ⟨hs.dropLast, hs.getLast hne, ?_⟩
    exact (List.dropLast_append_getLast hne).symm
  subst hys
  have hyslen : ys.length = 1000 := by
    simp only [List.length_append, List.length_singleton] at hlen
    omega
  have hysnd : ys.Nodup := (List.nodup_append.mp hnd).1
  have hzfresh : z ∉ ys := by
    have := (List.nodup_append.mp hnd).2.2
    intro hz
    exact this hz (by simp)
  rw [List.foldl_append]
  have hys_fold : ys.foldl addAndPrune [] = ys := by
    simpa using foldl_addAndPrune_append ys [] hysnd (by simp) (by simp [hyslen])
  rw [hys_fold]
  simp only [List.foldl_cons, List.foldl_nil]
  rw [addAndPrune_fresh_over ys z hzfresh (by simp [hyslen])]

/-- A REST activity record as consumed by the polling detector
(`Activity` from the data-api client; fields the detector reads). -/
structure Activity where
  proxyWallet : Option String
  side : Side
  size : ℚ
  price : ℚ
  asset : String
  transactionHash : String
  timestamp : ℤ
deriving DecidableEq, Repr

/-- The canonical detected trade (`SmartMoneyTrade`), with the fields the
detection and execution paths consult. -/
structure SmartMoneyTrade where
  traderAddress : String
  side : Side
  size : ℚ
  price : ℚ
  tokenId : Option String
  txHash : Option String
  timestamp : ℤ
  isSmartMoney : Bool
  detectionSource : Option String
deriving DecidableEq, Repr

/-- `activityToSmartMoneyTrade`: returns `none` when the activity has no
`proxyWallet`; otherwise maps the record's fields directly. -/
def activityToSmartMoneyTrade (smartMoneySet : List String) (a : Activity) :
    Option SmartMoneyTrade :=
  match a.proxyWallet with
  | none => none
  | some pw =>
    let traderAddress := toLowerCase pw
    some
      { traderAddress := traderAddress
        side := a.side
        size := a.size
        price := a.price
        tokenId := some a.asset
        txHash := some a.transactionHash
        timestamp := a.timestamp
        isSmartMoney := smartMoneySet.contains traderAddress
        detectionSource := none }

/-- The body of the polling tick's per-activity loop in `startPolling`:
skip if the transaction hash is in the seen window, otherwise mark it (with
pruning), convert the activity, tag it `polling`, and dispatch it.  The first
component is the window; the second accumulates the dispatched events. -/
def pollStep (smartMoneySet : List String)
    (st : List String × List SmartMoneyTrade) (a : Activity) :
    List String × List SmartMoneyTrade :=
  let (w, out) := st
  if a.transactionHash ∈ w then (w, out)
  else
    let w' := addAndPrune w a.transactionHash
    match activityToSmartMoneyTrade smartMoneySet a with
    | none => (w', out)
    | some t => (w', out ++ [{ t with detectionSource := some "polling" }])

/-- One polling tick dispatch pass over the activity list returned by
`pollTargetWallets`. -/
def pollDispatch (smartMoneySet : List String) (w : List String)
    (activities : List Activity) : List String × List SmartMoneyTrade :=
  activities.foldl (pollStep smartMoneySet) (w, [])

/-- One decoded settlement order (`DecodedOrder` from the calldata decoder):
the fields `handleMempoolMessage` reads. -/
structure DecodedOrder where
  maker : String
  signer : String
  tokenId : String
  side : Side
  makerAmount : ℕ
  takerAmount : ℕ
deriving DecidableEq, Repr

/-- A decoded settlement (`DecodedSettlement`): one taker order plus the list
of maker orders. -/
structure DecodedSettlement where
  takerOrder : DecodedOrder
  makerOrders : List DecodedOrder
deriving DecidableEq, Repr

/-- The pending-transaction object fields `handleMempoolMessage` reads. -/
structure MempoolTx where
  toAddress : Option String
  input : Option String
  hash : Option String
deriving DecidableEq, Repr

/-- Price/size derivation from a decoded order's raw amounts
(`handleMempoolMessage`, the `makerAmt`/`takerAmt` block): both amounts are
scaled by `10⁻⁶`; BUY gives `price = makerAmt / takerAmt`, `size = takerAmt`;
SELL gives `price = takerAmt / makerAmt`, `size = makerAmt`. -/
def derivePriceSize (side : Side) (makerAmount takerAmount : ℕ) : ℚ × ℚ :=
  let makerAmt : ℚ := (makerAmount : ℚ) / 1000000
  let takerAmt : ℚ := (takerAmount : ℚ) / 1000000
  match side with
  | Side.BUY => (makerAmt / takerAmt, takerAmt)
  | Side.SELL => (takerAmt / makerAmt, makerAmt)

/-- Selection of the target's order: the taker order unless the target is
neither its maker nor its signer and a maker order of the target exists. -/
def selectTargetOrder (d : DecodedSettlement) (targetTrader : String) :
    DecodedOrder :=
  if d.takerOrder.maker = targetTrader ∨ d.takerOrder.signer = targetTrader then
    d.takerOrder
  else
    match d.makerOrders.find? (fun o => o.maker = targetTrader ∨ o.signer = targetTrader) with
    | some o => o
    | none => d.takerOrder

/-- Construction of the mempool-detected `SmartMoneyTrade`. -/
def mkMempoolTrade (smartMoneySet : List String) (d : DecodedSettlement)
    (targetTrader : String) (hash : Option String) (now : ℤ) : SmartMoneyTrade :=
  let ord := selectTargetOrder d targetTrader
  let pr := derivePriceSize ord.side ord.makerAmount ord.takerAmount
  { traderAddress := targetTrader
    side := ord.side
    size := pr.2
    price := pr.1
    tokenId := some ord.tokenId
    txHash := hash
    timestamp := now
    isSmartMoney := smartMoneySet.contains targetTrader
    detectionSource := some "mempool" }

/-- The dedup-and-dispatch tail of `handleMempoolMessage`: with a hash, skip if
seen, else mark (with pruning) and dispatch; without a hash, dispatch without
consulting or updating the window. -/
def mempoolDedupDispatch (smartMoneySet : List String) (w : List String)
    (hash : Option String) (d : DecodedSettlement) (targetTrader : String)
    (now : ℤ) : List String × Option SmartMoneyTrade :=
  match hash with
  | some h =>
    if h ∈ w then (w, none)
    else (addAndPrune w h, some (mkMempoolTrade smartMoneySet d targetTrader (some h) now))
  | none => (w, some (mkMempoolTrade smartMoneySet d targetTrader none now))

/-- `handleMempoolMessage` on a parsed pending-transaction notification.
`routerAddresses`/`selector` stand for the `ROUTER_ADDRESSES` set and
`MATCH_ORDERS_SELECTOR` constant; `decoded` is the result of
`decodeMatchOrdersCalldata(tx.input)` and `traders` the result of
`extractTraderAddresses(decoded)`, both imported from the calldata decoder and
supplied here as inputs.  Returns the updated window and the dispatched event,
if any. -/
def handleMempoolMessage (routerAddresses : List String) (selector : String)
    (targets smartMoneySet : List String) (w : List String) (tx : MempoolTx)
    (decoded : Option DecodedSettlement) (traders : List String) (now : ℤ) :
    List String × Option SmartMoneyTrade :=
  match tx.toAddress with
  | none => (w, none)
  | some toAddr =>
    if toLowerCase toAddr ∈ routerAddresses then
      match tx.input with
      | none => (w, none)
      | some inp =>
        if strStartsWith inp selector then
          match decoded with
          | none => (w, none)
          | some d =>
            match traders.find? (fun a => targets.contains a) with
            | none => (w, none)
            | some targetTrader =>
              mempoolDedupDispatch smartMoneySet w tx.hash d targetTrader now
        else (w, none)
    else (w, none)

/-- `n` successive observations of the same pending transaction, accumulating
the dispatched events. -/
def mempoolIterate (routerAddresses : List String) (selector : String)
    (targets smartMoneySet : List String) (tx : MempoolTx)
    (decoded : Option DecodedSettlement) (traders : List String) (now : ℤ)
    (w : List String) : ℕ → List String × List SmartMoneyTrade
  | 0 => (w, [])
  | n + 1 =>
    let step := handleMempoolMessage routerAddresses selector targets smartMoneySet
      w tx decoded traders now
    let rest := mempoolIterate routerAddresses selector targets smartMoneySet tx
      decoded traders now step.1 n
    (rest.1, (match step.2 with | some e => [e] | none => []) ++ rest.2)

/-- The descending-timestamp order used by the polling tick's
`.sort((a, b) => b.timestamp - a.timestamp)`. -/
def tsDesc (a b : Activity) : Prop := b.timestamp ≤ a.timestamp

instance : DecidableRel tsDesc := fun a b => by
  unfold tsDesc
  infer_instance

instance : IsTotal Activity tsDesc :=
  ⟨fun a b => le_total b.timestamp a.timestamp⟩

instance : IsTrans Activity tsDesc :=
  ⟨fun _ _ _ h1 h2 => le_trans h2 h1⟩

/-- `pollTargetWallets`: fan out one activity query per tracked wallet (each
with `start := lastCheckTimestamp`), treat a per-wallet failure as an empty
result, advance the rolling timestamp to `max(start, now − 10)` (the 10-second
overlap window), and return the merged results sorted by timestamp
descending.  `fetchActivity wallet start` stands for
`dataApi.getActivity(wallet, { start, ... })`; an `Except.error` is the query
throwing. -/
def pollTargetWallets (wallets : List String)
    (fetchActivity : String → ℤ → Except String (List Activity))
    (lastCheckTimestamp now : ℤ) : List Activity × ℤ :=
  if wallets.isEmpty then ([], lastCheckTimestamp)
  else
    let results := wallets.map (fun wallet =>
      match fetchActivity wallet lastCheckTimestamp with
      | Except.ok activities => activities
      | Except.error _ => [])
    let newLastCheck := max lastCheckTimestamp (now - 10)
    (List.insertionSort tsDesc results.flatten, newLastCheck)

/-- `clamp(value, min, max)` from the service's utilities:
`Math.max(min, Math.min(max, value))`. -/
def clamp (value mn mx : ℚ) : ℚ := max mn (min mx value)

/-- `roundToTick(price)`: `Math.round(price * 100) / 100`; JavaScript
`Math.round` is `⌊x + 1/2⌋`. -/
def roundToTick (price : ℚ) : ℚ := ((⌊price * 100 + 1 / 2⌋ : ℤ) : ℚ) / 100

/-- `calculateLimitPrice(side, detectedPrice, offset)`: add the offset for BUY,
subtract it for SELL, clamp to `[0.01, 0.99]`, round to the 0.01 tick. -/
def calculateLimitPrice (side : Side) (detectedPrice offset : ℚ) : ℚ :=
  let raw := match side with
    | Side.BUY => detectedPrice + offset
    | Side.SELL => detectedPrice - offset
  roundToTick (clamp raw (1 / 100) (99 / 100))

/-- The market-mode slippage price from `startAutoCopyTrading`:
`trade.price * (1 + maxSlippage)` for BUY, `trade.price * (1 - maxSlippage)`
for SELL (used as-is, no clamp or rounding). -/
def slippagePriceOf (side : Side) (detectedPrice maxSlippage : ℚ) : ℚ :=
  match side with
  | Side.BUY => detectedPrice * (1 + maxSlippage)
  | Side.SELL => detectedPrice * (1 - maxSlippage)

/-- The `while (effectiveSplitCount > 1 && floor(totalSize / effectiveSplitCount)
< MIN_SHARES) effectiveSplitCount--` loop of `createSplitOrders`. -/
def reduceSplitCount (totalSize : ℚ) : ℕ → ℕ
  | 0 => 0
  | 1 => 1
  | n + 2 =>
    if ⌊totalSize / ((n + 2 : ℕ) : ℚ)⌋ < 5 then reduceSplitCount totalSize (n + 1)
    else n + 2

/-- One child order produced by the split planner. -/
structure SplitOrder where
  tokenId : String
  side : Side
  price : ℚ
  size : ℚ
  orderType : String
deriving DecidableEq, Repr

/-- `createSplitOrders`: reject a split count over 15; auto-reduce the split
count until each child meets the 5-share minimum; reject if even then a child
is under the minimum; emit `effectiveSplitCount` children of size
`floor(totalSize / effectiveSplitCount)` at prices graduated by
`i * splitSpread` from the base limit price (ascending for BUY, descending for
SELL), each clamped and rounded.  `Except.error` models the thrown
configuration error. -/
def createSplitOrders (tokenId : String) (side : Side)
    (basePrice totalSize : ℚ) (splitCount : ℕ) (splitSpread limitPriceOffset : ℚ)
    (orderType : String := "GTC") : Except String (List SplitOrder) :=
  if 15 < splitCount then
    Except.error "Split count exceeds Polymarket maximum (15 orders)"
  else if ⌊totalSize / ((reduceSplitCount totalSize splitCount : ℕ) : ℚ)⌋ < 5 then
    Except.error "Split order size below minimum (5 shares)"
  else
    Except.ok ((List.range (reduceSplitCount totalSize splitCount)).map (fun (i : ℕ) =>
      { tokenId := tokenId
        side := side
        price := roundToTick (clamp
          (calculateLimitPrice side basePrice limitPriceOffset +
            (match side with
             | Side.BUY => (i : ℚ) * splitSpread
             | Side.SELL => -(i : ℚ) * splitSpread)) (1 / 100) (99 / 100))
        size := ((⌊totalSize / ((reduceSplitCount totalSize splitCount : ℕ) : ℚ)⌋ : ℤ) : ℚ)
        orderType := orderType }))

/-- The executor's size computation (`startAutoCopyTrading`):
`copySize = max(MIN_SHARES, size * sizeScale)`, then if
`copySize * price > maxSizePerTrade` recompute `copySize` from the cap.
Returns `(copySize, copyValue)`. -/
def computeCopySize (size price sizeScale maxSizePerTrade : ℚ) : ℚ × ℚ :=
  let copySize := max 5 (size * sizeScale)
  let copyValue := copySize * price
  if copyValue > maxSizePerTrade then (maxSizePerTrade / price, maxSizePerTrade)
  else (copySize, copyValue)

/-- Result shape of the exchange client's order-placement calls. -/
structure OrderResult where
  success : Bool
  orderId : Option String
  errorMsg : Option String
deriving DecidableEq, Repr

/-- `orderMode`: market vs limit execution. -/
inductive OrderMode where
  | market
  | limit
deriving DecidableEq, Repr

/-- The running statistics of an auto-copy session (`AutoCopyTradingStats`,
minus the wall-clock start time). -/
structure CopyStats where
  tradesDetected : ℕ
  tradesExecuted : ℕ
  tradesSkipped : ℕ
  tradesFailed : ℕ
  totalUsdcSpent : ℚ
  filteredByPrice : ℕ
deriving DecidableEq, Repr

/-- The session configuration derived from `AutoCopyTradingOptions` inside
`startAutoCopyTrading` (defaults already applied).  `has*` flags record which
optional callbacks were supplied. -/
structure CopyConfig where
  targetAddresses : List String
  sizeScale : ℚ
  maxSizePerTrade : ℚ
  maxSlippage : ℚ
  minTradeSize : ℚ
  sideFilter : Option Side
  priceRange : Option (ℚ × ℚ)
  hasTradeFilter : Bool
  dryRun : Bool
  sellFullPosition : Bool
  orderMode : OrderMode
  limitPriceOffset : ℚ
  splitCount : ℕ
  splitSpread : ℚ
  retryCount : ℕ
  hasOrderManager : Bool
  hasOnOrderPlaced : Bool
  hasPreOrderCheck : Bool
  hasOnTrade : Bool

/-- Oracle for every external call and user callback the per-event handler can
make.  `Except.error e` models the call throwing exception `e`; result fields
for the retried placement calls are indexed by the attempt number. -/
structure ExecEnv where
  tradeFilterResult : Except String Bool
  conditionalBalance : Except String ℚ
  collateralBalance : Except String ℚ
  preOrderCheckResult : Except String Bool
  orderManagerPlace : Except String String
  batchResult : Except String OrderResult
  limitResults : ℕ → Except String OrderResult
  marketResults : ℕ → Except String OrderResult
  onOrderPlacedResult : Except String Unit
  onTradeResult : Except String Unit

/-- Outcome of the handler body (the `try` block): final statistics, the
exception escaping to the top-level `catch` (if any), whether control reached
the execution stage, and the order result on normal completion. -/
structure BodyResult where
  stats : CopyStats
  thrown : Option String
  reachedExecution : Bool
  result : Option OrderResult
deriving DecidableEq, Repr

/-- `stats.tradesSkipped++`. -/
def skipOne (s : CopyStats) : CopyStats :=
  { s with tradesSkipped := s.tradesSkipped + 1 }

/-- One placement attempt inside the retry loop of `startAutoCopyTrading`:
limit mode routes to the order manager (single orders), the batch split path
(its own `try`/`catch` turns a thrown error into a failed result), or a direct
limit order; market mode places a market order.  An `Except.error` propagates
to the top-level catch. -/
def placeOnce (cfg : CopyConfig) (env : ExecEnv) (trade : SmartMoneyTrade)
    (tokenId : String) (copySize : ℚ) (attempt : ℕ) :
    Except String OrderResult :=
  if cfg.orderMode = OrderMode.limit then
    if cfg.hasOrderManager ∧ cfg.splitCount = 1 then
      match env.orderManagerPlace with
      | Except.error e => Except.error e
      | Except.ok oid =>
        if cfg.hasOnOrderPlaced then
          match env.onOrderPlacedResult with
          | Except.error e => Except.error e
          | Except.ok _ =>
            Except.ok { success := true, orderId := some oid, errorMsg := none }
        else Except.ok { success := true, orderId := some oid, errorMsg := none }
    else if 1 < cfg.splitCount then
      match createSplitOrders tokenId trade.side trade.price copySize
          cfg.splitCount cfg.splitSpread cfg.limitPriceOffset with
      | Except.error e =>
        Except.ok { success := false, orderId := none, errorMsg := some e }
      | Except.ok _ =>
        match env.batchResult with
        | Except.error e =>
          Except.ok { success := false, orderId := none, errorMsg := some e }
        | Except.ok r => Except.ok r
    else env.limitResults attempt
  else env.marketResults attempt

/-- The retry loop: place, then `break` on success or when the attempt index
reaches `retryCount`, else retry.  `fuel` counts the remaining retries. -/
def retryGo (place : ℕ → Except String OrderResult) (retryCount : ℕ) :
    ℕ → ℕ → Except String OrderResult
  | fuel, attempt =>
    match place attempt, fuel with
    | Except.error e, _ => Except.error e
    | Except.ok r, 0 => Except.ok r
    | Except.ok r, fuel + 1 =>
      if r.success ∨ retryCount ≤ attempt then Except.ok r
      else retryGo place retryCount fuel (attempt + 1)

/-- The statistics update after execution: skipped entirely when the order
manager owns a single limit order's lifecycle, otherwise `executed`/`spend` on
success and `failed` on failure. -/
def applyResultStats (cfg : CopyConfig) (s : CopyStats) (r : OrderResult)
    (usdcAmount : ℚ) : CopyStats :=
  if cfg.hasOrderManager ∧ cfg.orderMode = OrderMode.limit ∧ cfg.splitCount = 1 then s
  else if r.success then
    { s with tradesExecuted := s.tradesExecuted + 1
             totalUsdcSpent := s.totalUsdcSpent + usdcAmount }
  else { s with tradesFailed := s.tradesFailed + 1 }

/-- The tail of the body: statistics update, then the `onTrade` callback
(whose exception, if any, escapes to the top-level catch). -/
def stageFinish (cfg : CopyConfig) (env : ExecEnv) (s : CopyStats)
    (r : OrderResult) (usdcAmount : ℚ) : BodyResult :=
  let s' := applyResultStats cfg s r usdcAmount
  if cfg.hasOnTrade then
    match env.onTradeResult with
    | Except.error e => ⟨s', some e, true, some r⟩
    | Except.ok _ => ⟨s', none, true, some r⟩
  else ⟨s', none, true, some r⟩

/-- The execution stage: dry-run short-circuit, otherwise the retry loop; a
placement exception escapes to the top-level catch. -/
def stageExec (cfg : CopyConfig) (env : ExecEnv) (s : CopyStats)
    (trade : SmartMoneyTrade) (tokenId : String) (copySize usdcAmount : ℚ) :
    BodyResult :=
  if cfg.dryRun then
    stageFinish cfg env s
      { success := true, orderId := some "dry_run", errorMsg := none } usdcAmount
  else
    match retryGo (placeOnce cfg env trade tokenId copySize) cfg.retryCount
        cfg.retryCount 0 with
    | Except.error e => ⟨s, some e, true, none⟩
    | Except.ok r => stageFinish cfg env s r usdcAmount

/-- The `preOrderCheck` stage: a `false` verdict skips; an exception from the
check is caught at the stage and treated as proceed. -/
def stagePreOrder (cfg : CopyConfig) (env : ExecEnv) (s : CopyStats)
    (trade : SmartMoneyTrade) (tokenId : String) (copySize usdcAmount : ℚ) :
    BodyResult :=
  if cfg.hasPreOrderCheck then
    match env.preOrderCheckResult with
    | Except.ok false => ⟨skipOne s, none, false, none⟩
    | Except.ok true => stageExec cfg env s trade tokenId copySize usdcAmount
    | Except.error _ => stageExec cfg env s trade tokenId copySize usdcAmount
  else stageExec cfg env s trade tokenId copySize usdcAmount

/-- The BUY collateral pre-check: insufficient balance skips; a failure of the
balance query itself is caught at the stage and treated as proceed. -/
def stageBuyCheck (cfg : CopyConfig) (env : ExecEnv) (s : CopyStats)
    (trade : SmartMoneyTrade) (tokenId : String) (copySize usdcAmount : ℚ) :
    BodyResult :=
  if ¬cfg.dryRun ∧ trade.side = Side.BUY then
    match env.collateralBalance with
    | Except.error _ => stagePreOrder cfg env s trade tokenId copySize usdcAmount
    | Except.ok bal =>
      if bal / 1000000 < usdcAmount then ⟨skipOne s, none, false, none⟩
      else stagePreOrder cfg env s trade tokenId copySize usdcAmount
  else stagePreOrder cfg env s trade tokenId copySize usdcAmount

/-- The SELL full-position override: substitute the held token balance for the
computed size (skipping when under the 5-share minimum); a failure of the
balance query keeps the computed size. -/
def stageSell (cfg : CopyConfig) (env : ExecEnv) (s : CopyStats)
    (trade : SmartMoneyTrade) (tokenId : String) (copySize copyValue : ℚ) :
    BodyResult :=
  if ¬cfg.dryRun ∧ trade.side = Side.SELL ∧ cfg.sellFullPosition then
    match env.conditionalBalance with
    | Except.error _ => stageBuyCheck cfg env s trade tokenId copySize copyValue
    | Except.ok bal =>
      let availableShares := bal / 1000000
      if availableShares < 5 then ⟨skipOne s, none, false, none⟩
      else stageBuyCheck cfg env s trade tokenId availableShares
        (availableShares * trade.price)
  else stageBuyCheck cfg env s trade tokenId copySize copyValue

/-- The token stage: skip events with no token identifier. -/
def stageToken (cfg : CopyConfig) (env : ExecEnv) (s : CopyStats)
    (trade : SmartMoneyTrade) (copySize copyValue : ℚ) : BodyResult :=
  match trade.tokenId with
  | none => ⟨skipOne s, none, false, none⟩
  | some tokenId => stageSell cfg env s trade tokenId copySize copyValue

/-- The sizing stage: `computeCopySize`, then skip when the resulting value is
under the $1 platform minimum. -/
def stageSize (cfg : CopyConfig) (env : ExecEnv) (s : CopyStats)
    (trade : SmartMoneyTrade) : BodyResult :=
  let pr := computeCopySize trade.size trade.price cfg.sizeScale cfg.maxSizePerTrade
  if pr.2 < 1 then ⟨skipOne s, none, false, none⟩
  else stageToken cfg env s trade pr.1 pr.2

/-- Does the optional side filter reject this side? -/
def sideFilterRejects : Option Side → Side → Bool
  | some sf, sd => decide (sd ≠ sf)
  | none, _ => false

/-- Does the optional price-range filter reject this price? -/
def priceRangeRejects : Option (ℚ × ℚ) → ℚ → Bool
  | some (mn, mx), p => decide (p < mn ∨ p > mx)
  | none, _ => false

/-- The `try` block of the per-event handler of `startAutoCopyTrading`:
target re-check, minimum-trade-value filter, side filter, price-range filter,
the caller's synchronous trade filter (whose exception escapes to the
top-level catch), then the sizing/execution stages. -/
def runCopyBody (cfg : CopyConfig) (env : ExecEnv) (s : CopyStats)
    (trade : SmartMoneyTrade) : BodyResult :=
  if ¬cfg.targetAddresses.contains (toLowerCase trade.traderAddress) then
    ⟨s, none, false, none⟩
  else if trade.size * trade.price < cfg.minTradeSize then
    ⟨skipOne s, none, false, none⟩
  else if sideFilterRejects cfg.sideFilter trade.side then
    ⟨skipOne s, none, false, none⟩
  else if priceRangeRejects cfg.priceRange trade.price then
    ⟨{ skipOne s with filteredByPrice := s.filteredByPrice + 1 }, none, false, none⟩
  else if cfg.hasTradeFilter then
    match env.tradeFilterResult with
    | Except.error e => ⟨s, some e, false, none⟩
    | Except.ok false => ⟨skipOne s, none, false, none⟩
    | Except.ok true => stageSize cfg env s trade
  else stageSize cfg env s trade

/-- The whole per-event handler: `stats.tradesDetected++`, the `try` body, and
the top-level `catch` that counts the event as failed and surfaces the
exception via `onError`.  The second component is the argument passed to
`onError`, when it is invoked. -/
def runCopyHandler (cfg : CopyConfig) (env : ExecEnv) (s : CopyStats)
    (trade : SmartMoneyTrade) : CopyStats × Option String :=
  let s1 := { s with tradesDetected := s.tradesDetected + 1 }
  let b := runCopyBody cfg env s1 trade
  match b.thrown with
  | some e => ({ b.stats with tradesFailed := b.stats.tradesFailed + 1 }, some e)
  | none => (b.stats, none)

/-- The detector/session state owned by the service: whether the polling timer
and the mempool socket are live, the registered handler set (as opaque handler
identifiers), the tracked-wallet lists, and the dedup window. -/
structure ServiceState where
  pollActive : Bool
  mempoolActive : Bool
  tradeHandlers : List ℕ
  targetWallets : List String
  mempoolTargetAddresses : List String
  seenTxHashes : List String
deriving DecidableEq, Repr

/-- `stopPolling`: clear the polling interval. -/
def stopPolling (st : ServiceState) : ServiceState :=
  { st with pollActive := false }

/-- `stopMempoolMonitor`: close the mempool socket. -/
def stopMempoolMonitor (st : ServiceState) : ServiceState :=
  { st with mempoolActive := false }

/-- The `unsubscribe` closure returned by `subscribeSmartMoneyTrades`: remove
this subscriber's handler; when no handler remains, stop both detectors and
clear the tracked wallets and the dedup window. -/
def unsubscribe (st : ServiceState) (handlerId : ℕ) : ServiceState :=
  let st' := { st with tradeHandlers := st.tradeHandlers.erase handlerId }
  if st'.tradeHandlers.isEmpty then
    { stopMempoolMonitor (stopPolling st') with
      targetWallets := []
      mempoolTargetAddresses := []
      seenTxHashes := [] }
  else st'

/-- C3: after any mark operation on a window within the 1000 ceiling the
window stays within the ceiling; an insertion that pushes it above the ceiling
evicts the oldest 500 entries in one pass; inserting 1001 distinct hashes into
an empty window settles at ≤ 1000 entries with the most recent half still
present. -/
theorem seen_window_eviction_C3 {α : Type} [DecidableEq α]
    (w : List α) (h : α) (hs : List α)
    (hw : w.length ≤ 1000) (hnd : hs.Nodup) (hlen : hs.length = 1001) :
    (addAndPrune w h).length ≤ 1000 ∧
    (h ∉ w → (w ++ [h]).length > 1000 → addAndPrune w h = (w ++ [h]).drop 500) ∧
    (hs.foldl addAndPrune []).length ≤ 1000 ∧
    (∀ x ∈ hs.drop 501, x ∈ hs.foldl addAndPrune []) := by
  refine ⟨length_addAndPrune_le w h hw, addAndPrune_fresh_over w h, ?_, ?_⟩
  · exact foldl_addAndPrune_length_le hs [] (by simp)
  · intro x hx
    rw [foldl_addAndPrune_of_length_1001 hs hnd hlen]
    have : hs.drop 501 = (hs.drop 500).drop 1 := by
      rw [List.drop_drop]
    rw [this] at hx
    exact List.drop_subset 1 (hs.drop 500) hx

theorem seen_window_eviction_C3_witness :
    ([] : List ℕ).length ≤ 1000 ∧ (List.range 1001).Nodup ∧
      (List.range 1001).length = 1001 ∧
      ((addAndPrune ([] : List ℕ) 7).length ≤ 1000 ∧
        (7 ∉ ([] : List ℕ) → (([] : List ℕ) ++ [7]).length > 1000 →
          addAndPrune ([] : List ℕ) 7 = (([] : List ℕ) ++ [7]).drop 500) ∧
        ((List.range 1001).foldl addAndPrune []).length ≤ 1000 ∧
        (∀ x ∈ (List.range 1001).drop 501,
          x ∈ (List.range 1001).foldl addAndPrune [])) :=
  ⟨by decide, List.nodup_range 1001, by simp,
    seen_window_eviction_C3 [] 7 (List.range 1001) (by decide)
      (List.nodup_range 1001) (by simp)⟩

theorem pollStep_seen (smartMoneySet w : List String)
    (out : List SmartMoneyTrade) (a : Activity)
    (hmem : a.transactionHash ∈ w) :
    pollStep smartMoneySet (w, out) a = (w, out) := by
  unfold pollStep
  simp [hmem]

theorem handleMempool_seen (routerAddresses targets smartMoneySet traders w :
    List String) (selector : String) (tx : MempoolTx)
    (decoded : Option DecodedSettlement) (now : ℤ) (h : String)
    (hhash : tx.hash = some h) (hmem : h ∈ w) :
    handleMempoolMessage routerAddresses selector targets smartMoneySet w tx
      decoded traders now = (w, none) := by
  unfold handleMempoolMessage
  cases hto : tx.toAddress with
  | none => rfl
  | some toAddr =>
    simp only
    split
    · cases hinp : tx.input with
      | none => rfl
      | some inp =>
        simp only
        split
        · cases decoded with
          | none => rfl
          | some d =>
            simp only
            cases hfind : traders.find? (fun a => targets.contains a) with
            | none => rfl
            | some tgt =>
              simp only [mempoolDedupDispatch, hhash, hmem, if_true]
        · rfl
    · rfl

theorem handleMempool_dispatch_window (routerAddresses targets smartMoneySet
    traders w w1 : List String) (selector : String) (tx : MempoolTx)
    (decoded : Option DecodedSettlement) (now : ℤ) (h : String)
    (ev : SmartMoneyTrade) (hhash : tx.hash = some h)
    (hdisp : handleMempoolMessage routerAddresses selector targets smartMoneySet
      w tx decoded traders now = (w1, some ev)) :
    w1 = addAndPrune w h ∧ h ∉ w := by
  unfold handleMempoolMessage at hdisp
  cases hto : tx.toAddress with
  | none => rw [hto] at hdisp; simp at hdisp
  | some toAddr =>
    rw [hto] at hdisp
    simp only at hdisp
    by_cases hr : toLowerCase toAddr ∈ routerAddresses
    · rw [if_pos hr] at hdisp
      cases hinp : tx.input with
      | none => rw [hinp] at hdisp; simp at hdisp
      | some inp =>
        rw [hinp] at hdisp
        simp only at hdisp
        by_cases hsel : strStartsWith inp selector
        · rw [if_pos hsel] at hdisp
          cases decoded with
          | none => simp at hdisp
          | some d =>
            simp only at hdisp
            cases hfind : traders.find? (fun a => targets.contains a) with
            | none => rw [hfind] at hdisp; simp at hdisp
            | some tgt =>
              rw [hfind] at hdisp
              simp only [mempoolDedupDispatch, hhash] at hdisp
              by_cases hmem : h ∈ w
              · rw [if_pos hmem] at hdisp; simp at hdisp
              · rw [if_neg hmem] at hdisp
                exact ⟨(Prod.mk.injEq _ _ _ _ ▸ hdisp).1.symm, hmem⟩
        · rw [if_neg hsel] at hdisp; simp at hdisp
    · rw [if_neg hr] at hdisp; simp at hdisp

theorem pollStep_fresh (smartMoneySet w : List String) (a : Activity)
    (t : SmartMoneyTrade) (hmem : a.transactionHash ∉ w)
    (hconv : activityToSmartMoneyTrade smartMoneySet a = some t) :
    pollStep smartMoneySet (w, []) a =
      (addAndPrune w a.transactionHash,
       [{ t with detectionSource := some "polling" }]) := by
  unfold pollStep
  simp [hmem, hconv]

/-- C1: a transaction hash already in the seen-hash window is forwarded by
neither detection path — the polling loop skips such an activity and the
mempool handler returns before dispatch — and a hash delivered once by each
detector (in either order) yields exactly one dispatched trade event. -/
theorem dedup_idempotence_C1
    (smartMoneySet routerAddresses targets traders w : List String)
    (selector : String) (a : Activity) (tx : MempoolTx)
    (decoded : Option DecodedSettlement) (now : ℤ)
    (t : SmartMoneyTrade) (h : String)
    (hw : w.length ≤ 1000)
    (hhasha : a.transactionHash = h) (hhashtx : tx.hash = some h)
    (hconv : activityToSmartMoneyTrade smartMoneySet a = some t) :
    (h ∈ w →
      pollStep smartMoneySet (w, []) a = (w, []) ∧
      handleMempoolMessage routerAddresses selector targets smartMoneySet w tx
        decoded traders now = (w, none)) ∧
    (h ∉ w →
      (pollStep smartMoneySet (w, []) a).2.length = 1 ∧
      handleMempoolMessage routerAddresses selector targets smartMoneySet
        (pollStep smartMoneySet (w, []) a).1 tx decoded traders now
        = ((pollStep smartMoneySet (w, []) a).1, none)) ∧
    (∀ w1 ev,
      handleMempoolMessage routerAddresses selector targets smartMoneySet w tx
        decoded traders now = (w1, some ev) →
      pollStep smartMoneySet (w1, []) a = (w1, [])) := by
  refine ⟨?_, ?_, ?_⟩
  · intro hmem
    exact ⟨pollStep_seen smartMoneySet w [] a (hhasha ▸ hmem),
      handleMempool_seen routerAddresses targets smartMoneySet traders w
        selector tx decoded now h hhashtx hmem⟩
  · intro hmem
    have hstep := pollStep_fresh smartMoneySet w a t (hhasha ▸ hmem) hconv
    rw [hstep]
    refine ⟨rfl, ?_⟩
    apply handleMempool_seen routerAddresses targets smartMoneySet traders _
      selector tx decoded now h hhashtx
    rw [hhasha]
    exact mem_addAndPrune_self w h hw
  · intro w1 ev hdisp
    obtain ⟨hw1, hfresh⟩ := handleMempool_dispatch_window routerAddresses
      targets smartMoneySet traders w w1 selector tx decoded now h ev hhashtx
      hdisp
    apply pollStep_seen
    rw [hhasha, hw1]
    exact mem_addAndPrune_self w h hw

/-- Concrete fixtures for witnesses: an activity, its converted trade, a
matching pending transaction (with and without a hash), and a decoded
settlement whose taker belongs to the tracked set. -/
def wActivity : Activity :=
  { proxyWallet := some "0xcat", side := Side.BUY, size := 10, price := 1 / 2,
    asset := "tok1", transactionHash := "0xh1", timestamp := 5 }

def wOrder : DecodedOrder :=
  { maker := "0xcat", signer := "0xcat", tokenId := "tok1", side := Side.BUY,
    makerAmount := 50000000, takerAmount := 100000000 }

def wSettlement : DecodedSettlement := { takerOrder := wOrder, makerOrders := [] }

def wTx : MempoolTx :=
  { toAddress := some "0xrouter", input := some "0xd2ff", hash := some "0xh1" }

def wTxNoHash : MempoolTx :=
  { toAddress := some "0xrouter", input := some "0xd2ff", hash := none }

def wTrade : SmartMoneyTrade :=
  { traderAddress := "0xcat", side := Side.BUY, size := 10, price := 1 / 2,
    tokenId := some "tok1", txHash := some "0xh1", timestamp := 5,
    isSmartMoney := false, detectionSource := none }

theorem dedup_idempotence_C1_witness :
    (([] : List String).length ≤ 1000) ∧
    wActivity.transactionHash = "0xh1" ∧ wTx.hash = some "0xh1" ∧
    activityToSmartMoneyTrade [] wActivity = some wTrade ∧
    (("0xh1" : String) ∉ ([] : List String) →
      (pollStep [] ([], []) wActivity).2.length = 1 ∧
      handleMempoolMessage ["0xrouter"] "0xd2" ["0xcat"] []
        (pollStep [] ([], []) wActivity).1 wTx (some wSettlement) ["0xcat"] 9
        = ((pollStep [] ([], []) wActivity).1, none)) :=
  ⟨by decide, by decide, by decide, by rfl,
    (dedup_idempotence_C1 [] ["0xrouter"] ["0xcat"] ["0xcat"] [] "0xd2"
      wActivity wTx (some wSettlement) 9 wTrade "0xh1" (by decide) (by decide)
      (by decide) (by rfl)).2.1⟩

/-- C10: a settlement pending-transaction message without a hash whose decoded
traders intersect the tracked set is dispatched without consulting or updating
the dedup window, so it is never deduplicated: every one of `n` observations
re-dispatches the same event and leaves the window untouched. -/
theorem mempool_hashless_C10
    (routerAddresses targets smartMoneySet traders w : List String)
    (selector toAddr inp : String) (tx : MempoolTx) (d : DecodedSettlement)
    (now : ℤ) (targetTrader : String)
    (hhash : tx.hash = none) (hto : tx.toAddress = some toAddr)
    (hr : toLowerCase toAddr ∈ routerAddresses)
    (hinp : tx.input = some inp) (hsel : strStartsWith inp selector = true)
    (hfind : traders.find? (fun a => targets.contains a) = some targetTrader) :
    handleMempoolMessage routerAddresses selector targets smartMoneySet w tx
      (some d) traders now
      = (w, some (mkMempoolTrade smartMoneySet d targetTrader none now)) ∧
    (mkMempoolTrade smartMoneySet d targetTrader none now).txHash = none ∧
    (∀ n, mempoolIterate routerAddresses selector targets smartMoneySet tx
        (some d) traders now w n
      = (w, List.replicate n
          (mkMempoolTrade smartMoneySet d targetTrader none now))) := by
  have hstep : handleMempoolMessage routerAddresses selector targets
      smartMoneySet w tx (some d) traders now
      = (w, some (mkMempoolTrade smartMoneySet d targetTrader none now)) := by
    simp only [handleMempoolMessage, mempoolDedupDispatch, hto, hinp, hhash,
      hfind, hr, hsel, if_true]
  refine ⟨hstep, rfl, ?_⟩
  intro n
  induction n with
  | zero => rfl
  | succ k ih =>
    simp only [mempoolIterate, hstep, ih, List.replicate_succ,
      List.singleton_append]

theorem mempool_hashless_C10_witness :
    wTxNoHash.hash = none ∧ wTxNoHash.toAddress = some "0xrouter" ∧
    toLowerCase "0xrouter" ∈ ["0xrouter"] ∧
    wTxNoHash.input = some "0xd2ff" ∧
    (strStartsWith "0xd2ff" "0xd2" = true) ∧
    (["0xcat"].find? (fun a => ["0xcat"].contains a) = some "0xcat") ∧
    (handleMempoolMessage ["0xrouter"] "0xd2" ["0xcat"] [] [] wTxNoHash
        (some wSettlement) ["0xcat"] 9
      = ([], some (mkMempoolTrade [] wSettlement "0xcat" none 9)) ∧
      (mkMempoolTrade [] wSettlement "0xcat" none 9).txHash = none ∧
      (∀ n, mempoolIterate ["0xrouter"] "0xd2" ["0xcat"] [] wTxNoHash
          (some wSettlement) ["0xcat"] 9 [] n
        = ([], List.replicate n (mkMempoolTrade [] wSettlement "0xcat" none 9)))) :=
  ⟨by decide, by decide, by decide, by decide, by decide, by decide,
    mempool_hashless_C10 ["0xrouter"] ["0xcat"] [] ["0xcat"] [] "0xd2"
      "0xrouter" "0xd2ff" wTxNoHash wSettlement 9 "0xcat" (by decide)
      (by decide) (by decide) (by decide) (by decide) (by decide)⟩

/-- C2: the mempool detector's price/size derivation scales both raw amounts
by `10⁻⁶` and derives `price = makerAmount / takerAmount`, `size = takerAmount`
for BUY and `price = takerAmount / makerAmount`, `size = makerAmount` for SELL
(the scaling cancels in the price ratio); at raw amounts 50_000000 and
100_000000 this gives `(0.5, 100)` for BUY and `(2, 50)` for SELL. -/
theorem mempool_price_size_C2 (makerAmount takerAmount : ℕ) :
    derivePriceSize Side.BUY makerAmount takerAmount
      = (((makerAmount : ℚ) / 1000000) / ((takerAmount : ℚ) / 1000000),
         (takerAmount : ℚ) / 1000000) ∧
    derivePriceSize Side.SELL makerAmount takerAmount
      = (((takerAmount : ℚ) / 1000000) / ((makerAmount : ℚ) / 1000000),
         (makerAmount : ℚ) / 1000000) ∧
    (derivePriceSize Side.BUY makerAmount takerAmount).1
      = (makerAmount : ℚ) / (takerAmount : ℚ) ∧
    (derivePriceSize Side.SELL makerAmount takerAmount).1
      = (takerAmount : ℚ) / (makerAmount : ℚ) ∧
    derivePriceSize Side.BUY 50000000 100000000 = (1 / 2, 100) ∧
    derivePriceSize Side.SELL 50000000 100000000 = (2, 50) := by
  have hcancel : ∀ a b : ℚ, (a / 1000000) / (b / 1000000) = a / b := by
    intro a b
    rcases eq_or_ne b 0 with hb | hb
    · simp [hb]
    · field_simp
  refine ⟨rfl, rfl, ?_, ?_, ?_, ?_⟩
  · simp only [derivePriceSize]
    exact hcancel _ _
  · simp only [derivePriceSize]
    exact hcancel _ _
  · simp only [derivePriceSize]
    norm_num
  · simp only [derivePriceSize]
    norm_num

theorem reduceSplitCount_le (totalSize : ℚ) :
    ∀ c, reduceSplitCount totalSize c ≤ c
  | 0 => Nat.le_refl 0
  | 1 => Nat.le_refl 1
  | n + 2 => by
    unfold reduceSplitCount
    split
    · exact Nat.le_trans (reduceSplitCount_le totalSize (n + 1)) (by omega)
    · exact Nat.le_refl _

theorem one_le_reduceSplitCount (totalSize : ℚ) :
    ∀ c, 1 ≤ c → 1 ≤ reduceSplitCount totalSize c
  | 1, _ => Nat.le_refl 1
  | n + 2, _ => by
    unfold reduceSplitCount
    split
    · exact one_le_reduceSplitCount totalSize (n + 1) (by omega)
    · omega

theorem reduceSplitCount_stop (totalSize : ℚ) :
    ∀ c, 1 ≤ c → reduceSplitCount totalSize c = 1 ∨
      5 ≤ ⌊totalSize / ((reduceSplitCount totalSize c : ℕ) : ℚ)⌋
  | 1, _ => Or.inl rfl
  | n + 2, _ => by
    unfold reduceSplitCount
    split
    · exact reduceSplitCount_stop totalSize (n + 1) (by omega)
    · rename_i hge
      right
      omega

theorem reduceSplitCount_minimal (totalSize : ℚ) :
    ∀ c k, reduceSplitCount totalSize c < k → k ≤ c →
      ⌊totalSize / ((k : ℕ) : ℚ)⌋ < 5
  | 0, k, hlt, hle => by omega
  | 1, k, hlt, hle => by
    unfold reduceSplitCount at hlt
    omega
  | n + 2, k, hlt, hle => by
    unfold reduceSplitCount at hlt
    by_cases hcond : ⌊totalSize / ((n + 2 : ℕ) : ℚ)⌋ < 5
    · rw [if_pos hcond] at hlt
      rcases Nat.lt_or_ge k (n + 2) with hk | hk
      · exact reduceSplitCount_minimal totalSize (n + 1) k hlt (by omega)
      · have : k = n + 2 := by omega
        rw [this]
        exact hcond
    · rw [if_neg hcond] at hlt
      omega

/-- C4: the split planner rejects a requested count above 15; otherwise it
reduces (never increases) the count until each child's size
`floor(totalSize / effectiveSplitCount)` reaches the 5-share minimum, raising a
configuration error if even then a child is short; each child's size is that
floor, the children's sizes sum to at most `totalSize`, and child `i` is priced
at the base limit price offset by `±i·splitSpread`, clamped to `[0.01, 0.99]`
and rounded to the 0.01 tick; with `totalSize = 12` and requested count 5 the
effective count is 2. -/
theorem split_planner_C4 (tokenId : String) (side : Side)
    (basePrice totalSize splitSpread limitPriceOffset : ℚ) (splitCount : ℕ)
    (hc : 1 ≤ splitCount) :
    (15 < splitCount →
      createSplitOrders tokenId side basePrice totalSize splitCount splitSpread
        limitPriceOffset
        = Except.error "Split count exceeds Polymarket maximum (15 orders)") ∧
    reduceSplitCount totalSize splitCount ≤ splitCount ∧
    1 ≤ reduceSplitCount totalSize splitCount ∧
    (∀ k, reduceSplitCount totalSize splitCount < k → k ≤ splitCount →
      ⌊totalSize / (k : ℚ)⌋ < 5) ∧
    (splitCount ≤ 15 →
      ⌊totalSize / ((reduceSplitCount totalSize splitCount : ℕ) : ℚ)⌋ < 5 →
      createSplitOrders tokenId side basePrice totalSize splitCount splitSpread
        limitPriceOffset
        = Except.error "Split order size below minimum (5 shares)") ∧
    (∀ orders,
      createSplitOrders tokenId side basePrice totalSize splitCount splitSpread
        limitPriceOffset = Except.ok orders →
      orders.length = reduceSplitCount totalSize splitCount ∧
      (∀ o ∈ orders,
        o.size = ((⌊totalSize / ((reduceSplitCount totalSize splitCount : ℕ) : ℚ)⌋ : ℤ) : ℚ) ∧
        (5 : ℚ) ≤ o.size) ∧
      (orders.map SplitOrder.size).sum ≤ totalSize ∧
      (∀ i, i < orders.length →
        ∀ (hi : i < orders.length),
        orders[i].price
          = roundToTick (clamp
              (calculateLimitPrice side basePrice limitPriceOffset +
                (match side with
                 | Side.BUY => (i : ℚ) * splitSpread
                 | Side.SELL => -(i : ℚ) * splitSpread)) (1 / 100) (99 / 100)))) ∧
    reduceSplitCount 12 5 = 2 := by
  refine ⟨?_, reduceSplitCount_le totalSize splitCount,
    one_le_reduceSplitCount totalSize splitCount hc,
    reduceSplitCount_minimal totalSize splitCount, ?_, ?_, ?_⟩
  · intro hgt
    unfold createSplitOrders
    rw [if_pos hgt]
  · intro hle hfloor
    unfold createSplitOrders
    rw [if_neg (by omega), if_pos hfloor]
  · intro orders hok
    by_cases h15 : 15 < splitCount
    · rw [createSplitOrders, if_pos h15] at hok
      exact absurd hok (by simp)
    · simp only [createSplitOrders, if_neg h15] at hok
      by_cases hsmall :
          ⌊totalSize / ((reduceSplitCount totalSize splitCount : ℕ) : ℚ)⌋ < 5
      · rw [if_pos hsmall] at hok
        exact absurd hok (by simp)
      · rw [if_neg hsmall] at hok
        have horders := Except.ok.inj hok
        have hfive : (5 : ℚ) ≤
            ((⌊totalSize / ((reduceSplitCount totalSize splitCount : ℕ) : ℚ)⌋ : ℤ) : ℚ) := by
          have h5 : (5 : ℤ) ≤
              ⌊totalSize / ((reduceSplitCount totalSize splitCount : ℕ) : ℚ)⌋ := by
            omega
          exact_mod_cast h5
        have hsizes : ∀ o ∈ orders,
            o.size = ((⌊totalSize / ((reduceSplitCount totalSize splitCount : ℕ) : ℚ)⌋ : ℤ) : ℚ) := by
          intro o ho
          rw [← horders] at ho
          obtain ⟨i, _, hfo⟩ := List.mem_map.mp ho
          rw [← hfo]
        have hlen : orders.length = reduceSplitCount totalSize splitCount := by
          rw [← horders]
          simp
        refine ⟨hlen, ?_, ?_, ?_⟩
        · intro o ho
          exact ⟨hsizes o ho, (hsizes o ho) ▸ hfive⟩
        · have hall : ∀ x ∈ orders.map SplitOrder.size,
              x = ((⌊totalSize / ((reduceSplitCount totalSize splitCount : ℕ) : ℚ)⌋ : ℤ) : ℚ) := by
            intro x hx
            obtain ⟨o, ho, hxo⟩ := List.mem_map.mp hx
            rw [← hxo]
            exact hsizes o ho
          rw [List.sum_eq_card_nsmul _ _ hall, List.length_map, hlen, nsmul_eq_mul]
          set r := reduceSplitCount totalSize splitCount with hr
          have hrpos : 1 ≤ r := one_le_reduceSplitCount totalSize splitCount hc
          have hrne : ((r : ℕ) : ℚ) ≠ 0 := by
            have : 0 < ((r : ℕ) : ℚ) := by exact_mod_cast hrpos
            exact this.ne'
          calc ((r : ℕ) : ℚ) * ((⌊totalSize / ((r : ℕ) : ℚ)⌋ : ℤ) : ℚ)
              ≤ ((r : ℕ) : ℚ) * (totalSize / ((r : ℕ) : ℚ)) := by
                apply mul_le_mul_of_nonneg_left (Int.floor_le _)
                positivity
            _ = totalSize := by
                rw [mul_comm]
                exact div_mul_cancel₀ totalSize hrne
        · intro i hibound hi
          rw [List.getElem_of_eq horders.symm hi]
          simp only [List.getElem_map, List.getElem_range]
  · have h5 : ⌊(12 : ℚ) / 5⌋ = 2 := by norm_num
    have h4 : ⌊(12 : ℚ) / 4⌋ = 3 := by norm_num
    have h3 : ⌊(12 : ℚ) / 3⌋ = 4 := by norm_num
    have h2 : ⌊(12 : ℚ) / 2⌋ = 6 := by norm_num
    simp only [reduceSplitCount]
    norm_num [h5, h4, h3, h2]

theorem split_planner_C4_witness :
    (1 ≤ 5) ∧ reduceSplitCount 12 5 = 2 :=
  ⟨by decide,
    (split_planner_C4 "tok1" Side.BUY (1 / 2) 12 (1 / 1000) (1 / 100) 5
      (by decide)).2.2.2.2.2.2⟩

theorem clamp_mem (value : ℚ) :
    1 / 100 ≤ clamp value (1 / 100) (99 / 100) ∧
    clamp value (1 / 100) (99 / 100) ≤ 99 / 100 := by
  unfold clamp
  constructor
  · exact le_max_left _ _
  · apply max_le
    · norm_num
    · exact min_le_left _ _

theorem roundToTick_mem (x : ℚ) (hx1 : 1 / 100 ≤ x) (hx2 : x ≤ 99 / 100) :
    1 / 100 ≤ roundToTick x ∧ roundToTick x ≤ 99 / 100 := by
  unfold roundToTick
  have hlow : (1 : ℤ) ≤ ⌊x * 100 + 1 / 2⌋ := by
    apply Int.le_floor.mpr
    push_cast
    nlinarith
  have hhigh : ⌊x * 100 + 1 / 2⌋ ≤ 99 := by
    have hle : ((⌊x * 100 + 1 / 2⌋ : ℤ) : ℚ) ≤ x * 100 + 1 / 2 := Int.floor_le _
    have hlt : ((⌊x * 100 + 1 / 2⌋ : ℤ) : ℚ) < 100 := by nlinarith
    have : ⌊x * 100 + 1 / 2⌋ < 100 := by exact_mod_cast hlt
    omega
  have hlowq : (1 : ℚ) ≤ ((⌊x * 100 + 1 / 2⌋ : ℤ) : ℚ) := by exact_mod_cast hlow
  have hhighq : ((⌊x * 100 + 1 / 2⌋ : ℤ) : ℚ) ≤ 99 := by exact_mod_cast hhigh
  constructor
  · rw [div_le_div_iff₀ (by norm_num) (by norm_num)]
    linarith
  · rw [div_le_div_iff₀ (by norm_num) (by norm_num)]
    linarith

/-- C6: the market-mode execution price is `detectedPrice × (1 ± maxSlippage)`
(plus for BUY, minus for SELL); the limit-mode price is
`detectedPrice ± limitPriceOffset`, clamped to `[0.01, 0.99]` and rounded to
the 0.01 tick — so it always lies in `[0.01, 0.99]` and is an integer multiple
of 0.01; a BUY at detected price 0.995 with offset 0.01 yields 0.99, not
1.005. -/
theorem price_computation_C6 (detectedPrice maxSlippage offset : ℚ)
    (side : Side) :
    slippagePriceOf Side.BUY detectedPrice maxSlippage
      = detectedPrice * (1 + maxSlippage) ∧
    slippagePriceOf Side.SELL detectedPrice maxSlippage
      = detectedPrice * (1 - maxSlippage) ∧
    calculateLimitPrice Side.BUY detectedPrice offset
      = roundToTick (clamp (detectedPrice + offset) (1 / 100) (99 / 100)) ∧
    calculateLimitPrice Side.SELL detectedPrice offset
      = roundToTick (clamp (detectedPrice - offset) (1 / 100) (99 / 100)) ∧
    (1 / 100 ≤ calculateLimitPrice side detectedPrice offset ∧
      calculateLimitPrice side detectedPrice offset ≤ 99 / 100) ∧
    (∃ n : ℤ, calculateLimitPrice side detectedPrice offset = (n : ℚ) / 100) ∧
    calculateLimitPrice Side.BUY (199 / 200) (1 / 100) = 99 / 100 ∧
    (99 / 100 : ℚ) ≠ 201 / 200 := by
  refine ⟨rfl, rfl, rfl, rfl, ?_, ?_, ?_, by norm_num⟩
  · unfold calculateLimitPrice
    set raw := (match side with
      | Side.BUY => detectedPrice + offset
      | Side.SELL => detectedPrice - offset) with hraw
    obtain ⟨h1, h2⟩ := clamp_mem raw
    exact roundToTick_mem _ h1 h2
  · exact ⟨⌊(clamp (match side with
      | Side.BUY => detectedPrice + offset
      | Side.SELL => detectedPrice - offset) (1 / 100) (99 / 100)) * 100 + 1 / 2⌋, rfl⟩
  · unfold calculateLimitPrice clamp roundToTick
    norm_num

/-- C5: the executor computes `copySize = max(5, detectedSize × sizeScale)`;
when `copySize × detectedPrice` exceeds `maxSizePerTrade` it recomputes
`copySize = maxSizePerTrade / detectedPrice` so the trade value equals the cap;
and when the resulting value is under the $1 minimum the event is skipped
(skip counter incremented, execution never reached, no order placed).  At
detected size 1000, scale 0.1, price 0.6, cap 50 this yields
`copySize = 250/3 ≈ 83.33` and value 50. -/
theorem executor_sizing_C5 (size price sizeScale maxSizePerTrade : ℚ)
    (cfg : CopyConfig) (env : ExecEnv) (s : CopyStats)
    (trade : SmartMoneyTrade) :
    computeCopySize size price sizeScale maxSizePerTrade
      = (if max 5 (size * sizeScale) * price > maxSizePerTrade
         then (maxSizePerTrade / price, maxSizePerTrade)
         else (max 5 (size * sizeScale), max 5 (size * sizeScale) * price)) ∧
    ((computeCopySize trade.size trade.price cfg.sizeScale
        cfg.maxSizePerTrade).2 < 1 →
      stageSize cfg env s trade = ⟨skipOne s, none, false, none⟩) ∧
    computeCopySize 1000 (3 / 5) (1 / 10) 50 = (250 / 3, 50) := by
  refine ⟨rfl, ?_, ?_⟩
  · intro hlt
    unfold stageSize
    rw [if_pos hlt]
  · unfold computeCopySize
    norm_num

/-- Concrete fixtures for the executor pipeline: zeroed statistics, a
market-mode session configuration, an oracle where every call succeeds except
the collateral balance query (which throws), and a detected BUY trade. -/
def zeroStats : CopyStats :=
  { tradesDetected := 0, tradesExecuted := 0, tradesSkipped := 0,
    tradesFailed := 0, totalUsdcSpent := 0, filteredByPrice := 0 }

def cfgMarket : CopyConfig :=
  { targetAddresses := ["0xaaa"], sizeScale := 1 / 10, maxSizePerTrade := 50,
    maxSlippage := 3 / 100, minTradeSize := 10, sideFilter := none,
    priceRange := none, hasTradeFilter := false, dryRun := false,
    sellFullPosition := false, orderMode := OrderMode.market,
    limitPriceOffset := 1 / 100, splitCount := 1, splitSpread := 1 / 1000,
    retryCount := 3, hasOrderManager := false, hasOnOrderPlaced := false,
    hasPreOrderCheck := false, hasOnTrade := false }

def envBalanceThrows : ExecEnv :=
  { tradeFilterResult := Except.ok true, conditionalBalance := Except.ok 0,
    collateralBalance := Except.error "rpc down",
    preOrderCheckResult := Except.ok true, orderManagerPlace := Except.ok "om1",
    batchResult := Except.ok { success := true, orderId := some "b1", errorMsg := none },
    limitResults := fun _ =>
      Except.ok { success := true, orderId := some "l1", errorMsg := none },
    marketResults := fun _ =>
      Except.ok { success := true, orderId := some "m1", errorMsg := none },
    onOrderPlacedResult := Except.ok (), onTradeResult := Except.ok () }

def tradeBuy : SmartMoneyTrade :=
  { traderAddress := "0xaaa", side := Side.BUY, size := 1000, price := 3 / 5,
    tokenId := some "tok1", txHash := some "0xh9", timestamp := 0,
    isSmartMoney := false, detectionSource := some "mempool" }

/-- A trade whose computed copy value falls under the $1 minimum (size 10,
price 1/20: `copySize = max(5, 1) = 5`, value `1/4`). -/
def tradeTiny : SmartMoneyTrade :=
  { traderAddress := "0xaaa", side := Side.BUY, size := 10, price := 1 / 20,
    tokenId := some "tok1", txHash := some "0xh8", timestamp := 0,
    isSmartMoney := false, detectionSource := some "polling" }

theorem executor_sizing_C5_witness :
    (computeCopySize tradeTiny.size tradeTiny.price cfgMarket.sizeScale
      cfgMarket.maxSizePerTrade).2 < 1 ∧
    stageSize cfgMarket envBalanceThrows zeroStats tradeTiny
      = ⟨skipOne zeroStats, none, false, none⟩ := by
  have hval : (computeCopySize tradeTiny.size tradeTiny.price cfgMarket.sizeScale
      cfgMarket.maxSizePerTrade).2 < 1 := by
    simp only [tradeTiny, cfgMarket, computeCopySize]
    norm_num
  exact ⟨hval,
    (executor_sizing_C5 0 0 0 0 cfgMarket envBalanceThrows zeroStats
      tradeTiny).2.1 hval⟩

/-- C7: each polling tick issues one history query per tracked wallet (all
with the same rolling `since` timestamp), treats a per-wallet failure as an
empty result without aborting the round, advances the rolling timestamp to
`max(previous, now − 10)` — so a tick re-queries the trailing 10 seconds
whenever at least 10 seconds of range exist, no matter how much time elapsed —
and returns the merged results sorted by timestamp descending. -/
theorem polling_tick_C7 (wallets : List String)
    (fetchActivity : String → ℤ → Except String (List Activity))
    (lastCheckTimestamp now : ℤ) :
    (wallets = [] →
      pollTargetWallets wallets fetchActivity lastCheckTimestamp now
        = ([], lastCheckTimestamp)) ∧
    (wallets ≠ [] →
      (pollTargetWallets wallets fetchActivity lastCheckTimestamp now).2
        = max lastCheckTimestamp (now - 10)) ∧
    (pollTargetWallets wallets fetchActivity lastCheckTimestamp now
      = pollTargetWallets wallets
          (fun wallet start =>
            match fetchActivity wallet start with
            | Except.error _ => Except.ok []
            | r => r) lastCheckTimestamp now) ∧
    (pollTargetWallets wallets fetchActivity lastCheckTimestamp now).1.Sorted
      tsDesc ∧
    (pollTargetWallets wallets fetchActivity lastCheckTimestamp now).1.Perm
      ((wallets.map (fun wallet =>
        match fetchActivity wallet lastCheckTimestamp with
        | Except.ok activities => activities
        | Except.error _ => [])).flatten) ∧
    (wallets ≠ [] → lastCheckTimestamp ≤ now - 10 →
      (pollTargetWallets wallets fetchActivity lastCheckTimestamp now).2
        = now - 10) ∧
    (wallets ≠ [] → lastCheckTimestamp ≤ now →
      (pollTargetWallets wallets fetchActivity lastCheckTimestamp now).2 ≤ now) := by
  by_cases hempty : wallets = []
  · subst hempty
    refine ⟨fun _ => rfl, fun hne => absurd rfl hne, rfl, ?_, ?_,
      fun hne => absurd rfl hne, fun hne => absurd rfl hne⟩
    · simp [pollTargetWallets, List.Sorted]
    · simp [pollTargetWallets]
  · have hne : ¬wallets.isEmpty := by
      simp [List.isEmpty_iff, hempty]
    refine ⟨fun heq => absurd heq hempty, ?_, ?_, ?_, ?_, ?_, ?_⟩
    · intro _
      simp [pollTargetWallets, hne]
    · unfold pollTargetWallets
      simp only [hne, Bool.false_eq_true, if_false]
      have hmaps : wallets.map (fun wallet =>
          match fetchActivity wallet lastCheckTimestamp with
          | Except.ok activities => activities
          | Except.error _ => [])
        = wallets.map (fun wallet =>
            match (match fetchActivity wallet lastCheckTimestamp with
              | Except.error _ => Except.ok ([] : List Activity)
              | r => r) with
            | Except.ok activities => activities
            | Except.error _ => []) := by
        apply List.map_congr_left
        intro wallet _
        cases fetchActivity wallet lastCheckTimestamp <;> rfl
      rw [hmaps]
    · simp only [pollTargetWallets, hne, Bool.false_eq_true, if_false]
      exact List.sorted_insertionSort tsDesc _
    · simp only [pollTargetWallets, hne, Bool.false_eq_true, if_false]
      exact List.perm_insertionSort tsDesc _
    · intro _ hlate
      simp only [pollTargetWallets, hne, Bool.false_eq_true, if_false]
      omega
    · intro _ hpast
      simp only [pollTargetWallets, hne, Bool.false_eq_true, if_false]
      omega

theorem polling_tick_C7_witness :
    ((["0xaaa"] : List String) ≠ []) ∧ ((0 : ℤ) ≤ 100 - 10) ∧
    (pollTargetWallets ["0xaaa"] (fun _ _ => Except.ok [wActivity]) 0 100).2
      = 100 - 10 :=
  ⟨by decide, by decide,
    (polling_tick_C7 ["0xaaa"] (fun _ _ => Except.ok [wActivity]) 0
      100).2.2.2.2.2.1 (by decide) (by decide)⟩

/-- C9: when the last handler is removed, `unsubscribe` cancels the polling
timer, closes the mempool socket, and clears the tracked wallets and the
dedup window; while at least one handler remains, everything except the
handler set is left unchanged (detectors keep running). -/
theorem session_teardown_C9 (st : ServiceState) (handlerId : ℕ) :
    (st.tradeHandlers.erase handlerId = [] →
      unsubscribe st handlerId
        = { pollActive := false, mempoolActive := false, tradeHandlers := [],
            targetWallets := [], mempoolTargetAddresses := [],
            seenTxHashes := [] }) ∧
    (st.tradeHandlers.erase handlerId ≠ [] →
      unsubscribe st handlerId
        = { st with tradeHandlers := st.tradeHandlers.erase handlerId }) := by
  constructor
  · intro hnil
    unfold unsubscribe stopPolling stopMempoolMonitor
    simp [hnil]
  · intro hne
    unfold unsubscribe
    simp [List.isEmpty_iff, hne]

theorem session_teardown_C9_witness :
    (([1] : List ℕ).erase 1 = []) ∧
    unsubscribe
        { pollActive := true, mempoolActive := true, tradeHandlers := [1],
          targetWallets := ["0xaaa"], mempoolTargetAddresses := ["0xaaa"],
          seenTxHashes := ["0xh1"] } 1
      = { pollActive := false, mempoolActive := false, tradeHandlers := [],
          targetWallets := [], mempoolTargetAddresses := [],
          seenTxHashes := [] } :=
  ⟨by decide,
    (session_teardown_C9
      { pollActive := true, mempoolActive := true, tradeHandlers := [1],
        targetWallets := ["0xaaa"], mempoolTargetAddresses := ["0xaaa"],
        seenTxHashes := ["0xh1"] } 1).1 (by decide)⟩

theorem copy_handler_inner_catch_C8_counterexample :
    envBalanceThrows.collateralBalance = Except.error "rpc down" ∧
    runCopyHandler cfgMarket envBalanceThrows zeroStats tradeBuy
      = ({ tradesDetected := 1, tradesExecuted := 1, tradesSkipped := 0,
           tradesFailed := 0, totalUsdcSpent := 50, filteredByPrice := 0 },
         none) := by
  have htar : (["0xaaa"] : List String).contains (toLowerCase "0xaaa") = true := by
    decide
  have hlow : toLowerCase "0xaaa" = "0xaaa" := by decide
  refine ⟨rfl, ?_⟩
  norm_num [runCopyHandler, runCopyBody, stageSize, stageToken, stageSell,
    stageBuyCheck, stagePreOrder, stageExec, stageFinish, applyResultStats,
    retryGo, placeOnce, computeCopySize, skipOne, sideFilterRejects,
    priceRangeRejects, cfgMarket, envBalanceThrows, zeroStats, tradeBuy, htar,
    hlow]

/-- C8 (amended): an exception that reaches the top level of the per-event
handler — for example one thrown by the caller's synchronous trade filter — is
caught there, increments the failed counter by one, and is surfaced via
`onError`; but exceptions thrown by the balance queries (the BUY collateral
pre-check and the SELL full-position query) and by the `preOrderCheck` stage
are caught at their own stage and treated as proceed (no failed count, no
`onError`), and a batch-order placement exception is converted into a failed
order result rather than thrown.  In every case the handler returns normally:
no exception propagates out of it. -/
theorem copy_handler_error_policy_C8 (cfg : CopyConfig) (env : ExecEnv)
    (s : CopyStats) (trade : SmartMoneyTrade) (e : String) (tokenId : String)
    (copySize usdcAmount : ℚ) :
    (∀ e2,
      (runCopyBody cfg env
        { s with tradesDetected := s.tradesDetected + 1 } trade).thrown = some e2 →
      runCopyHandler cfg env s trade
        = ({ (runCopyBody cfg env
              { s with tradesDetected := s.tradesDetected + 1 } trade).stats with
             tradesFailed := (runCopyBody cfg env
              { s with tradesDetected := s.tradesDetected + 1 } trade).stats.tradesFailed + 1 },
           some e2)) ∧
    ((runCopyBody cfg env
        { s with tradesDetected := s.tradesDetected + 1 } trade).thrown = none →
      runCopyHandler cfg env s trade
        = ((runCopyBody cfg env
            { s with tradesDetected := s.tradesDetected + 1 } trade).stats, none)) ∧
    (cfg.targetAddresses.contains (toLowerCase trade.traderAddress) = true →
      ¬trade.size * trade.price < cfg.minTradeSize →
      sideFilterRejects cfg.sideFilter trade.side = false →
      priceRangeRejects cfg.priceRange trade.price = false →
      cfg.hasTradeFilter = true →
      env.tradeFilterResult = Except.error e →
      runCopyHandler cfg env s trade
        = ({ s with tradesDetected := s.tradesDetected + 1,
                    tradesFailed := s.tradesFailed + 1 }, some e)) ∧
    (env.collateralBalance = Except.error e →
      stageBuyCheck cfg env s trade tokenId copySize usdcAmount
        = stagePreOrder cfg env s trade tokenId copySize usdcAmount) ∧
    (env.preOrderCheckResult = Except.error e →
      stagePreOrder cfg env s trade tokenId copySize usdcAmount
        = stageExec cfg env s trade tokenId copySize usdcAmount) ∧
    (env.conditionalBalance = Except.error e →
      stageSell cfg env s trade tokenId copySize usdcAmount
        = stageBuyCheck cfg env s trade tokenId copySize usdcAmount) ∧
    (cfg.orderMode = OrderMode.limit →
      ¬(cfg.hasOrderManager ∧ cfg.splitCount = 1) →
      1 < cfg.splitCount →
      env.batchResult = Except.error e →
      ∀ (attempt : ℕ) (orders : List SplitOrder),
        createSplitOrders tokenId trade.side trade.price copySize
          cfg.splitCount cfg.splitSpread cfg.limitPriceOffset
          = Except.ok orders →
        placeOnce cfg env trade tokenId copySize attempt
          = Except.ok { success := false, orderId := none,
                        errorMsg := some e }) := by
  refine ⟨?_, ?_, ?_, ?_, ?_, ?_, ?_⟩
  · intro e2 hthrown
    simp only [runCopyHandler, hthrown]
  · intro hthrown
    simp only [runCopyHandler, hthrown]
  · intro htar hmin hside hprice hfilter herr
    unfold runCopyHandler runCopyBody
    rw [htar, hside, hprice, hfilter, herr]
    simp only [if_neg hmin]
    norm_num
  · intro herr
    unfold stageBuyCheck
    rw [herr]
    split <;> rfl
  · intro herr
    unfold stagePreOrder
    rw [herr]
    split <;> rfl
  · intro herr
    unfold stageSell
    rw [herr]
    split <;> rfl
  · intro hmode hnotom hsplit herr attempt orders hok
    simp only [placeOnce, hmode, hnotom, hsplit, hok, herr, if_true, if_false]

def cfgFilter : CopyConfig := { cfgMarket with hasTradeFilter := true }

def envFilterThrows : ExecEnv :=
  { envBalanceThrows with
    tradeFilterResult := Except.error "filter boom",
    collateralBalance := Except.ok 0 }

theorem copy_handler_error_policy_C8_witness :
    (cfgFilter.targetAddresses.contains (toLowerCase tradeBuy.traderAddress)
      = true) ∧
    ¬tradeBuy.size * tradeBuy.price < cfgFilter.minTradeSize ∧
    sideFilterRejects cfgFilter.sideFilter tradeBuy.side = false ∧
    priceRangeRejects cfgFilter.priceRange tradeBuy.price = false ∧
    cfgFilter.hasTradeFilter = true ∧
    envFilterThrows.tradeFilterResult = Except.error "filter boom" ∧
    runCopyHandler cfgFilter envFilterThrows zeroStats tradeBuy
      = ({ zeroStats with tradesDetected := zeroStats.tradesDetected + 1,
                          tradesFailed := zeroStats.tradesFailed + 1 },
         some "filter boom") :=
  ⟨by decide, by norm_num [tradeBuy, cfgFilter, cfgMarket], rfl, rfl, rfl, rfl,
    (copy_handler_error_policy_C8 cfgFilter envFilterThrows zeroStats tradeBuy
      "filter boom" "tok1" 0 0).2.2.1 (by decide)
      (by norm_num [tradeBuy, cfgFilter, cfgMarket]) rfl rfl rfl rfl⟩
